import Mathlib

/-!
Shallow embedding of `src/datasets/commands/dummy_data.py`
(class `DummyDataGeneratorDownloadManager` and its helpers).

Conventions of the embedding:
* Python `int` is modelled as `Int`; Python list slicing `xs[:stop]` is `pyTake`.
* A raised Python exception is `Except.error s` where `s` names the exception.
* A source file on disk is represented by its parsed form in the format the
  relevant branch of `_create_dummy_data` reads it with (`FileContent`); opening
  a file whose bytes do not parse in that format is modelled as an error, which
  is also what Python raises in that situation.
* Writing to disk is modelled by returning the list of `(path, Written)` pairs
  produced by a call, in the order the writes happen.
-/

namespace DummyData

/-- Python `str.strip()` whitespace set (ASCII part). -/
def pyWhitespace (c : Char) : Bool :=
  c == ' ' || c == '\t' || c == '\n' || c == '\r' || c == Char.ofNat 11 || c == Char.ofNat 12

/-- Python `s.strip()`. -/
def pyStrip (s : String) : String :=
  String.mk (((s.data.dropWhile pyWhitespace).reverse.dropWhile pyWhitespace).reverse)

/-- Python list slicing `xs[:stop]` (negative `stop` counts from the end, clamped). -/
def pyTake (stop : Int) (xs : List α) : List α :=
  if 0 ≤ stop then xs.take stop.toNat else xs.take ((xs.length : Int) + stop).toNat

/-- The length of `pyTake stop xs`, as a function of `stop` and `xs.length`. -/
def pyTakeLen (stop : Int) (len : Nat) : Nat :=
  if 0 ≤ stop then min stop.toNat len else min ((len : Int) + stop).toNat len

/-- Python `str.endswith` (on the destination paths). -/
def pyEndsWith (s suffix : String) : Bool :=
  List.isSuffixOf suffix.data s.data

/-- Python `str.startswith` (on the file names). -/
def pyStartsWith (s pre : String) : Bool :=
  List.isPrefixOf pre.data s.data

/-- Python `str.split(sep)` for a one-character separator. -/
def splitOnChar (sep : Char) : List Char → List (List Char)
  | [] => [[]]
  | c :: rest =>
    match splitOnChar sep rest with
    | [] => [[c]]
    | g :: gs => if c = sep then [] :: g :: gs else (c :: g) :: gs

/-- Python `os.path.basename` (POSIX): the part after the last slash. -/
def basename (path : String) : String :=
  String.mk (((splitOnChar '/' path.data).getLast?).getD path.data)

/-- Find the closing bracket of an `fnmatch` character class; returns the class
content and the rest of the pattern. -/
def splitBracket : List Char → List Char → Option (List Char × List Char)
  | [], _ => none
  | c :: rest, acc =>
    if c = ']' then some (acc.reverse, rest) else splitBracket rest (c :: acc)

/-- Membership test of a character in an `fnmatch` class body (supports ranges). -/
def matchSet : List Char → Char → Bool
  | a :: '-' :: b :: rest, c => (a ≤ c && c ≤ b) || matchSet rest c
  | a :: rest, c => (a == c) || matchSet rest c
  | [], _ => false

/-- Python `fnmatch.fnmatch` on POSIX (no case folding): glob match with
`*`, `?` and `[...]` classes. -/
def fnmatchChars (ps cs : List Char) : Bool :=
  match ps, cs with
  | [], [] => true
  | [], _ :: _ => false
  | '*' :: ps, cs =>
    fnmatchChars ps cs ||
      (match cs with
       | [] => false
       | _ :: cs2 => fnmatchChars ('*' :: ps) cs2)
  | '?' :: ps, _ :: cs => fnmatchChars ps cs
  | '[' :: ps, c :: cs =>
    (match hsb : splitBracket ps [] with
     | some (set, rest) =>
       (match set with
        | '!' :: set2 => (!(matchSet set2 c)) && fnmatchChars rest cs
        | _ => matchSet set c && fnmatchChars rest cs)
     | none => ('[' == c) && fnmatchChars ps cs)
  | p :: ps, c :: cs => (p == c) && fnmatchChars ps cs
  | _ :: _, [] => false
termination_by (ps.length, cs.length)
decreasing_by
  all_goals simp_wf
  all_goals
    have key : ∀ (qs acc s rest : List Char), splitBracket qs acc = some (s, rest) →
        rest.length ≤ qs.length := by
      intro qs
      induction qs with
      | nil => intro acc s rest hq; simp [splitBracket] at hq
      | cons c2 cs2 ih =>
        intro acc s rest hq
        simp only [splitBracket] at hq
        split at hq
        · injection hq with hq1
          injection hq1 with hq2 hq3
          subst hq3
          simp only [List.length_cons]
          omega
        · have := ih _ _ _ hq
          simp only [List.length_cons]
          omega
  all_goals first
  | omega
  | (rename_i hsb2 _ _ _
     have := key _ _ _ _ hsb2
     omega)
  | (have hk1 := key _ _ _ _ hsb
     omega)

def fnmatch (name pat : String) : Bool :=
  fnmatchChars pat.data name.data

/-- JSON values as loaded by `json.load`. -/
inductive Json where
  | null
  | bool (b : Bool)
  | num (n : Int)
  | str (s : String)
  | arr (elems : List Json)
  | obj (fields : List (String × Json))

/-- Python dict lookup `json_data[json_field]` on the field list. -/
def jsonLookup : List (String × Json) → String → Option Json
  | [], _ => none
  | (k, v) :: rest, key => if k = key then some v else jsonLookup rest key

/-- `json_data = json_data[json_field]` when `json_field is not None`
(`KeyError` if the key is absent, `TypeError` if the value is not a dict). -/
def jsonSelectField (j : Json) (field : Option String) : Except String Json :=
  match field with
  | none => .ok j
  | some f =>
    match j with
    | .obj fields =>
      match jsonLookup fields f with
      | some v => .ok v
      | none => .error "KeyError"
    | _ => .error "TypeError"

def isJsonArr : Json → Bool
  | .arr _ => true
  | _ => false

/-- The dict comprehension forming the first rows of each column. -/
def truncFields (n : Int) : List (String × Json) → List (String × Json)
  | [] => []
  | (k, .arr v) :: rest => (k, .arr (pyTake n v)) :: truncFields n rest
  | (k, v) :: rest => (k, v) :: truncFields n rest

/-- The `first_json_data` computation: column check and truncation for dicts,
slicing `json_data[:n_lines]` otherwise (`TypeError` where Python would raise). -/
def jsonHead (j : Json) (n : Int) : Except String Json :=
  match j with
  | .obj fields =>
    if fields.all (fun kv => isJsonArr kv.2) then .ok (.obj (truncFields n fields))
    else .error "ValueError"
  | .arr elems => .ok (.arr (pyTake n elems))
  | .str s => .ok (.str (String.mk (pyTake n s.data)))
  | _ => .error "TypeError"

/-- Re-wrapping `first_json_data = ⟨json_field: first_json_data⟩`. -/
def jsonWrap (field : Option String) (j : Json) : Json :=
  match field with
  | none => j
  | some f => .obj [(f, j)]

/-! XML trees as parsed by `xml.etree.ElementTree` (tags and child elements;
text content is irrelevant to the truncation logic). -/

mutual
inductive Xml where
  | node (tag : String) (children : XmlList)
inductive XmlList where
  | nil
  | cons (head : Xml) (tail : XmlList)
end

def Xml.tag : Xml → String
  | .node t _ => t

def Xml.children : Xml → XmlList
  | .node _ cs => cs

/-- Number of direct members of the list whose tag is `t`
(the `children = [child for child in parent if child.tag == xml_tag]` list). -/
def XmlList.countTag (t : String) : XmlList → Nat
  | .nil => 0
  | .cons x rest => (if x.tag = t then 1 else 0) + XmlList.countTag t rest

/-- Does some direct member of the list have tag `t`? -/
def XmlList.hasTag (t : String) : XmlList → Bool
  | .nil => false
  | .cons x rest => x.tag = t || XmlList.hasTag t rest

/-! `_get_parent_tag`: walk the tree in document (pre-)order and return the tag
of the first element having a direct child tagged `xtag` (Python returns `None`
when the loop falls through). -/
mutual
def findParentTag (xtag : String) : Xml → Option String
  | .node t cs =>
    if XmlList.hasTag xtag cs then some t else findParentTagList xtag cs
def findParentTagList (xtag : String) : XmlList → Option String
  | .nil => none
  | .cons x rest =>
    match findParentTag xtag x with
    | some t => some t
    | none => findParentTagList xtag rest
end

/-! The in-place removal loop `for parent in tree.iter(parent_tag): ...`,
written as a functional pre-order pass threading `current`.
At a node tagged `ptag` the kept number of `xtag` children is
`len(children[:n_lines - current])`, `current` is bumped by it before the
iterator descends, later `xtag` children are removed (and hence never visited),
and the pass continues inside the remaining children. -/
mutual
def truncXml (xtag ptag : String) (n : Int) : Xml → Int → Xml × Int
  | .node t cs, cur =>
    if t = ptag then
      let keep := pyTakeLen (n - cur) (XmlList.countTag xtag cs)
      let r := truncChildren xtag ptag n cs keep (cur + (keep : Int))
      (.node t r.1, r.2)
    else
      let r := truncXmlList xtag ptag n cs cur
      (.node t r.1, r.2)
def truncChildren (xtag ptag : String) (n : Int) :
    XmlList → Nat → Int → XmlList × Int
  | .nil, _, cur => (.nil, cur)
  | .cons x rest, budget, cur =>
    if x.tag = xtag then
      match budget with
      | 0 => truncChildren xtag ptag n rest 0 cur
      | b + 1 =>
        let r1 := truncXml xtag ptag n x cur
        let r2 := truncChildren xtag ptag n rest b r1.2
        (.cons r1.1 r2.1, r2.2)
    else
      let r1 := truncXml xtag ptag n x cur
      let r2 := truncChildren xtag ptag n rest budget r1.2
      (.cons r1.1 r2.1, r2.2)
def truncXmlList (xtag ptag : String) (n : Int) : XmlList → Int → XmlList × Int
  | .nil, cur => (.nil, cur)
  | .cons x rest, cur =>
    let r1 := truncXml xtag ptag n x cur
    let r2 := truncXmlList xtag ptag n rest r1.2
    (.cons r1.1 r2.1, r2.2)
end

/-! Elements tagged `xtag` that are direct children of an element tagged
`ptag`, summed over the whole tree. -/
mutual
def countUnder (xtag ptag : String) : Xml → Nat
  | .node t cs =>
    (if t = ptag then XmlList.countTag xtag cs else 0) + countUnderList xtag ptag cs
def countUnderList (xtag ptag : String) : XmlList → Nat
  | .nil => 0
  | .cons x rest => countUnder xtag ptag x + countUnderList xtag ptag rest
end

/-! Elements tagged `xtag` that are a direct child of any element, summed over
the whole tree (the count the original claim C4 bounds). -/
mutual
def countChildrenAll (xtag : String) : Xml → Nat
  | .node _ cs => XmlList.countTag xtag cs + countChildrenAllList xtag cs
def countChildrenAllList (xtag : String) : XmlList → Nat
  | .nil => 0
  | .cons x rest => countChildrenAll xtag x + countChildrenAllList xtag rest
end

/-- A source file, represented by its parsed form in the format the relevant
branch of `_create_dummy_data` reads it with. -/
inductive FileContent where
  | text (lines : List String)
  | jsonData (j : Json)
  | xmlData (x : Xml)

/-- Content written to a destination path. -/
inductive Written where
  | text (s : String)
  | jsonOut (j : Json)
  | xmlOut (x : Xml)

def line_by_line_extensions : List String := [".txt", ".csv", ".jsonl", ".tsv"]

/-- The `is_line_by_line_text_file` flag: extension test, then `|=` over the
comma-separated `match_text_files` patterns applied to the base name. -/
def is_line_by_line_text_file (dst_path : String) (match_text_files : Option String) : Bool :=
  let base := line_by_line_extensions.any (fun ext => pyEndsWith dst_path ext)
  match match_text_files with
  | none => base
  | some pats =>
    ((splitOnChar ',' pats.data).map String.mk).foldl
      (fun acc pat => acc || fnmatch (basename dst_path) pat) base

/-- `_create_dummy_data` on a path for which `os.path.isfile` is true.
Returns the count the Python function returns together with the writes
performed, or the exception raised. -/
def create_dummy_file (content : FileContent) (dst_path : String) (n_lines : Int)
    (json_field xml_tag match_text_files : Option String) :
    Except String (Nat × List (String × Written)) :=
  if is_line_by_line_text_file dst_path match_text_files then
    match content with
    | .text lines =>
      if lines.length < n_lines.toNat then .error "StopIteration"
      else .ok (1, [(dst_path, .text (pyStrip (String.join (lines.take n_lines.toNat))))])
    | _ => .error "UnicodeDecodeError"
  else if pyEndsWith dst_path ".json" then
    match content with
    | .jsonData j =>
      match jsonSelectField j json_field with
      | .error e => .error e
      | .ok jd =>
        match jsonHead jd n_lines with
        | .error e => .error e
        | .ok first_json_data =>
          .ok (1, [(dst_path, .jsonOut (jsonWrap json_field first_json_data))])
    | _ => .error "JSONDecodeError"
  else if pyEndsWith dst_path ".xml" then
    match xml_tag with
    | none => .ok (1, [])
    | some xtag =>
      match content with
      | .xmlData x =>
        match findParentTag xtag x with
        | none => .error "AssertionError"
        | some ptag => .ok (1, [(dst_path, .xmlOut (truncXml xtag ptag n_lines x 0).1)])
      | _ => .error "ParseError"
  else .ok (0, [])

/-! A source path on disk: a regular file, or a directory whose entries are
named children (regular files or subdirectories), in directory order. -/

mutual
inductive Source where
  | file (content : FileContent)
  | dir (entries : EntryList)
inductive EntryList where
  | nil
  | cons (name : String) (child : Source) (rest : EntryList)
end

/-- Python `os.path.join(dst, name)` (POSIX, relative `name`). -/
def pathJoin (dst name : String) : String := dst ++ "/" ++ name

/-- Sequential combination of two per-file results: Python runs the first, then
the second, adds the counts and performs the writes in order; the first raised
exception aborts everything. -/
def combineRuns (a b : Except String (Nat × List (String × Written))) :
    Except String (Nat × List (String × Written)) :=
  match a with
  | .error e => .error e
  | .ok (k1, w1) =>
    match b with
    | .error e => .error e
    | .ok (k2, w2) => .ok (k1 + k2, w1 ++ w2)

/-! The `os.walk(src_path)` loop of `_create_dummy_data` on a directory:
for each directory in pre-order, every regular file in it is processed (names
starting with a dot are skipped), recursing into `_create_dummy_data` with the
destination extended by the file's path relative to the source directory. -/
mutual
def run_dir (n_lines : Int) (json_field xml_tag match_text_files : Option String) :
    EntryList → String → Except String (Nat × List (String × Written))
  | es, dst =>
    combineRuns (runFilesOf n_lines json_field xml_tag match_text_files es dst)
      (runSubdirsOf n_lines json_field xml_tag match_text_files es dst)
def runFilesOf (n_lines : Int) (json_field xml_tag match_text_files : Option String) :
    EntryList → String → Except String (Nat × List (String × Written))
  | .nil, _ => .ok (0, [])
  | .cons name (.file c) rest, dst =>
    combineRuns
      (if pyStartsWith name "." then .ok (0, [])
       else create_dummy_file c (pathJoin dst name) n_lines json_field xml_tag match_text_files)
      (runFilesOf n_lines json_field xml_tag match_text_files rest dst)
  | .cons _ (.dir _) rest, dst =>
    runFilesOf n_lines json_field xml_tag match_text_files rest dst
def runSubdirsOf (n_lines : Int) (json_field xml_tag match_text_files : Option String) :
    EntryList → String → Except String (Nat × List (String × Written))
  | .nil, _ => .ok (0, [])
  | .cons name (.dir es) rest, dst =>
    combineRuns (run_dir n_lines json_field xml_tag match_text_files es (pathJoin dst name))
      (runSubdirsOf n_lines json_field xml_tag match_text_files rest dst)
  | .cons _ (.file _) rest, dst =>
    runSubdirsOf n_lines json_field xml_tag match_text_files rest dst
end

/-- `_create_dummy_data`: dispatch on `os.path.isfile` / `os.path.isdir`.
When `src_path` is neither (`none` here), the Python function falls off the end
and returns `None`, modelled as an `ok` result with count `none`. -/
def create_dummy_data (src_path : Option Source) (dst_path : String) (n_lines : Int)
    (json_field xml_tag match_text_files : Option String) :
    Except String (Option Nat × List (String × Written)) :=
  match src_path with
  | some (.file c) =>
    match create_dummy_file c dst_path n_lines json_field xml_tag match_text_files with
    | .error e => .error e
    | .ok (k, w) => .ok (some k, w)
  | some (.dir es) =>
    match run_dir n_lines json_field xml_tag match_text_files es dst_path with
    | .error e => .error e
    | .ok (k, w) => .ok (some k, w)
  | none => .ok (none, [])

/-- The `total` accumulation loop of `auto_generate_dummy_data_folder` over the
zipped `(downloaded_paths, expected_dummy_paths)` pairs; `total += None` raises
`TypeError`. -/
def autoGenerateTotal (n_lines : Int) (json_field xml_tag match_text_files : Option String) :
    List (Option Source × String) → Except String (Nat × List (String × Written))
  | [] => .ok (0, [])
  | (src, dst) :: rest =>
    match create_dummy_data src dst n_lines json_field xml_tag match_text_files with
    | .error e => .error e
    | .ok (none, _) => .error "TypeError"
    | .ok (some k, w) =>
      match autoGenerateTotal n_lines json_field xml_tag match_text_files rest with
      | .error e => .error e
      | .ok (total, ws) => .ok (total + k, w ++ ws)

/-- `auto_generate_dummy_data_folder`: runs `_create_dummy_data` on every
recorded pair and returns `total > 0` (together with the writes performed). -/
def auto_generate_dummy_data_folder (pairs : List (Option Source × String)) (n_lines : Int)
    (json_field xml_tag match_text_files : Option String) :
    Except String (Bool × List (String × Written)) :=
  match autoGenerateTotal n_lines json_field xml_tag match_text_files pairs with
  | .error e => .error e
  | .ok (total, w) => .ok (decide (0 < total), w)

/-! Nested structures of paths as returned by the download manager for nested
`url_or_urls` inputs (single values, lists/tuples, dicts). -/

mutual
inductive Nested (α : Type) where
  | leaf (a : α)
  | listN (xs : NestedList α)
  | dictN (xs : NestedDict α)
inductive NestedList (α : Type) where
  | nil
  | cons (head : Nested α) (tail : NestedList α)
inductive NestedDict (α : Type) where
  | nil
  | cons (key : String) (val : Nested α) (tail : NestedDict α)
end

/-! Modelled from the spec: `map_nested` is defined in `datasets/utils/py_utils.py`,
which is not part of the sources here. Per the spec's description of the shadow
download-manager ("records real-vs-mock path correspondences" by appending), the
call `map_nested(list.append, output, map_tuple=True)` appends every leaf of the
nested output to the list in traversal order, i.e. it appends the flattening of
the structure. -/
mutual
def flatten : Nested α → List α
  | .leaf a => [a]
  | .listN xs => flattenList xs
  | .dictN xs => flattenDict xs
def flattenList : NestedList α → List α
  | .nil => []
  | .cons x rest => flatten x ++ flattenList rest
def flattenDict : NestedDict α → List α
  | .nil => []
  | .cons _ v rest => flatten v ++ flattenDict rest
end

/-! Two nested structures have the same shape when they agree on the nesting
constructors and the lengths of all lists/dicts (keys are irrelevant to the
recorded correspondence). -/
mutual
def sameShape : Nested α → Nested β → Bool
  | .leaf _, .leaf _ => true
  | .listN xs, .listN ys => sameShapeList xs ys
  | .dictN xs, .dictN ys => sameShapeDict xs ys
  | _, _ => false
def sameShapeList : NestedList α → NestedList β → Bool
  | .nil, .nil => true
  | .cons x xs, .cons y ys => sameShape x y && sameShapeList xs ys
  | _, _ => false
def sameShapeDict : NestedDict α → NestedDict β → Bool
  | .nil, .nil => true
  | .cons _ x xs, .cons _ y ys => sameShape x y && sameShapeDict xs ys
  | _, _ => false
end

/-- The two recording lists of `DummyDataGeneratorDownloadManager`
(initialised empty in `__init__`). -/
structure DMState where
  downloaded_paths : List String
  expected_dummy_paths : List String

def DMState.init : DMState := ⟨[], []⟩

/-- The two `map_nested(... .append, ...)` lines shared by `download` and
`download_and_extract`. -/
def dmRecord (s : DMState) (output dummy_output : Nested String) : DMState :=
  { downloaded_paths := s.downloaded_paths ++ flatten output,
    expected_dummy_paths := s.expected_dummy_paths ++ flatten dummy_output }

/-- `DummyDataGeneratorDownloadManager.download`. Modelled from the spec:
`super().download` (the real `DownloadManager`, not part of the sources here)
returns the nested structure of downloaded paths `parent_output`, and
`mock_download_manager.download` returns the nested structure of fixture paths
`dummy_output`; both are pure values, so recording them cannot alter them. -/
def dmDownload (parent_output dummy_output : Nested String) (s : DMState) :
    Nested String × DMState :=
  (parent_output, dmRecord s parent_output dummy_output)

/-- `DummyDataGeneratorDownloadManager.download_and_extract`. Modelled from the
spec: `parent_downloaded` is what `super().download(url_or_urls)` returns and
`parent_extract` models `super().extract`. -/
def dmDownloadAndExtract (parent_downloaded : Nested String)
    (parent_extract : Nested String → Nested String)
    (dummy_output : Nested String) (s : DMState) : Nested String × DMState :=
  let output := parent_extract parent_downloaded
  (output, dmRecord s output dummy_output)

/-- One recorded call: either `download` or `download_and_extract`, carrying the
values the parent managers produce for it. -/
inductive DMCall where
  | download (parent_output dummy_output : Nested String)
  | downloadAndExtract (parent_downloaded : Nested String)
      (parent_extract : Nested String → Nested String) (dummy_output : Nested String)

/-- The real (returned) nested output of a call. -/
def DMCall.realOutput : DMCall → Nested String
  | .download p _ => p
  | .downloadAndExtract p ex _ => ex p

/-- The mock nested output of a call. -/
def DMCall.mockOutput : DMCall → Nested String
  | .download _ m => m
  | .downloadAndExtract _ _ m => m

/-- State evolution of the manager under one call. -/
def dmStep (s : DMState) : DMCall → DMState
  | .download p m => (dmDownload p m s).2
  | .downloadAndExtract p ex m => (dmDownloadAndExtract p ex m s).2

/-- State after a sequence of calls. -/
def dmRun (s : DMState) : List DMCall → DMState
  | [] => s
  | c :: rest => dmRun (dmStep s c) rest

/-! Auxiliary definitions used to state properties of the embedding. -/

/-- The elements of a JSON array (used only to state truncation results). -/
def jsonArrElems : Json → List Json
  | .arr xs => xs
  | _ => []

/-- A destination path falls into the `.xml` branch with `xml_tag` set to
`None`: `_create_dummy_data` then only warns, writes nothing, yet returns 1. -/
def file_hits_xml_none (dst_path : String) (xml_tag match_text_files : Option String) : Bool :=
  !is_line_by_line_text_file dst_path match_text_files &&
    !(pyEndsWith dst_path ".json") && pyEndsWith dst_path ".xml" && xml_tag.isNone

/-! Does some processed (non-hidden) file of a directory tree fall into the
`.xml`-with-`xml_tag = None` branch? Mirrors the traversal of `run_dir`. -/
mutual
def dirHitsXmlNone (xml_tag match_text_files : Option String) :
    EntryList → String → Bool
  | es, dst =>
    filesHitXmlNone xml_tag match_text_files es dst ||
      subdirsHitXmlNone xml_tag match_text_files es dst
def filesHitXmlNone (xml_tag match_text_files : Option String) :
    EntryList → String → Bool
  | .nil, _ => false
  | .cons name (.file _) rest, dst =>
    (!(pyStartsWith name ".") && file_hits_xml_none (pathJoin dst name) xml_tag match_text_files) ||
      filesHitXmlNone xml_tag match_text_files rest dst
  | .cons _ (.dir _) rest, dst => filesHitXmlNone xml_tag match_text_files rest dst
def subdirsHitXmlNone (xml_tag match_text_files : Option String) :
    EntryList → String → Bool
  | .nil, _ => false
  | .cons name (.dir es) rest, dst =>
    dirHitsXmlNone xml_tag match_text_files es (pathJoin dst name) ||
      subdirsHitXmlNone xml_tag match_text_files rest dst
  | .cons _ (.file _) rest, dst => subdirsHitXmlNone xml_tag match_text_files rest dst
end

/-- Lift of the `.xml`-with-`None` detection to a recorded source path. -/
def sourceHitsXmlNone (xml_tag match_text_files : Option String) :
    Option Source → String → Bool
  | some (.file _), dst => file_hits_xml_none dst xml_tag match_text_files
  | some (.dir es), dst => dirHitsXmlNone xml_tag match_text_files es dst
  | none, _ => false

/-! The flattened `os.walk` view of a directory: every regular file under it
(hidden or not), as `(destination file path, file name, content)` triples in
`os.walk` order. -/
mutual
def walkRecords : EntryList → String → List (String × String × FileContent)
  | es, dst => walkFilesRecords es dst ++ walkSubdirsRecords es dst
def walkFilesRecords : EntryList → String → List (String × String × FileContent)
  | .nil, _ => []
  | .cons name (.file c) rest, dst =>
    (pathJoin dst name, name, c) :: walkFilesRecords rest dst
  | .cons _ (.dir _) rest, dst => walkFilesRecords rest dst
def walkSubdirsRecords : EntryList → String → List (String × String × FileContent)
  | .nil, _ => []
  | .cons name (.dir es) rest, dst =>
    walkRecords es (pathJoin dst name) ++ walkSubdirsRecords rest dst
  | .cons _ (.file _) rest, dst => walkSubdirsRecords rest dst
end

/-- Sequential per-file processing of a flat list of walk records: hidden names
are skipped, every other file goes through the `os.path.isfile` branch of
`_create_dummy_data`, counts are summed and writes concatenated. -/
def runRecords (n_lines : Int) (json_field xml_tag match_text_files : Option String) :
    List (String × String × FileContent) → Except String (Nat × List (String × Written))
  | [] => .ok (0, [])
  | (dstFile, name, c) :: rest =>
    combineRuns
      (if pyStartsWith name "." then .ok (0, [])
       else create_dummy_file c dstFile n_lines json_field xml_tag match_text_files)
      (runRecords n_lines json_field xml_tag match_text_files rest)

/-- A concrete call sequence for the shadow download manager: one `download`
of two URLs and one `download_and_extract`. -/
def c6calls : List DMCall :=
  [.download (.listN (.cons (.leaf "r1") (.cons (.leaf "r2") .nil)))
      (.listN (.cons (.leaf "m1") (.cons (.leaf "m2") .nil))),
   .downloadAndExtract (.leaf "d") id (.leaf "m3")]

/-- Concrete tree refuting claim C4: `item` elements occur both under the root
`a` (the inferred parent tag) and under a `b` element of a different tag. -/
def cexTree : Xml :=
  .node "a" (.cons (.node "item" .nil)
    (.cons (.node "b" (.cons (.node "item" .nil) (.cons (.node "item" .nil) .nil))) .nil))

/-! Helper lemmas. -/

theorem pyTake_length (stop : Int) (xs : List α) :
    (pyTake stop xs).length = pyTakeLen stop xs.length := by
  unfold pyTake pyTakeLen
  split <;> simp [List.length_take]

theorem pyTakeLen_le (stop : Int) (len : Nat) : pyTakeLen stop len ≤ len := by
  unfold pyTakeLen
  split <;> omega

theorem pyTakeLen_le_toNat (stop : Int) (len : Nat) (h : 0 ≤ stop) :
    pyTakeLen stop len ≤ stop.toNat := by
  unfold pyTakeLen
  split <;> omega

theorem pyTake_of_nonneg (stop : Int) (xs : List α) (h : 0 ≤ stop) :
    pyTake stop xs = xs.take stop.toNat := by
  unfold pyTake
  simp [h]

theorem truncFields_eq_map (n : Int) (hn : 0 ≤ n) :
    ∀ fields : List (String × Json), fields.all (fun kv => isJsonArr kv.2) = true →
      truncFields n fields =
        fields.map (fun kv => (kv.1, Json.arr ((jsonArrElems kv.2).take n.toNat))) := by
  intro fields hall
  induction fields with
  | nil => rfl
  | cons kv rest ih =>
    obtain ⟨k, v⟩ := kv
    simp only [List.all_cons, Bool.and_eq_true] at hall
    cases v with
    | arr xs =>
      simp only [truncFields, List.map_cons, jsonArrElems]
      rw [pyTake_of_nonneg _ _ hn]
      exact congrArg _ (ih hall.2)
    | null => simp [isJsonArr] at hall
    | bool b => simp [isJsonArr] at hall
    | num m => simp [isJsonArr] at hall
    | str s => simp [isJsonArr] at hall
    | obj fs => simp [isJsonArr] at hall

/-! Claim C1: line-by-line truncation. -/

/-- C1, amended: for a source file whose destination matches the line-by-line
dispatch (extension or `match_text_files` pattern), when the source has at
least `n_lines` lines, `_create_dummy_data` writes the concatenation of its
first `n_lines` lines with surrounding whitespace stripped and returns 1; when
the source has fewer lines, it raises `StopIteration`. -/
theorem C1_line_truncation (lines : List String) (dst_path : String) (n_lines : Int)
    (json_field xml_tag match_text_files : Option String)
    (hline : is_line_by_line_text_file dst_path match_text_files = true) :
    (n_lines.toNat ≤ lines.length →
      create_dummy_file (.text lines) dst_path n_lines json_field xml_tag match_text_files =
        .ok (1, [(dst_path, .text (pyStrip (String.join (lines.take n_lines.toNat))))])) ∧
    (lines.length < n_lines.toNat →
      create_dummy_file (.text lines) dst_path n_lines json_field xml_tag match_text_files =
        .error "StopIteration") := by
  constructor
  · intro h
    simp [create_dummy_file, hline, Nat.not_lt.mpr h]
  · intro h
    simp [create_dummy_file, hline, h]

/-- C1, witness: a three-line file truncated to its first two lines (note the
stripped trailing newline), and a one-line file with `n_lines = 5` raising. -/
theorem C1_line_truncation_inst :
    create_dummy_file (.text ["a\n", "b\n", "c\n"]) "f.txt" 2 none none none =
      .ok (1, [("f.txt", .text "a\nb")]) ∧
    create_dummy_file (.text ["a\n"]) "g.txt" 5 none none none = .error "StopIteration" := by
  constructor
  · have h := (C1_line_truncation ["a\n", "b\n", "c\n"] "f.txt" 2 none none none
      (by decide)).1 (by decide)
    rw [h]
    rfl
  · exact (C1_line_truncation ["a\n"] "g.txt" 5 none none none (by decide)).2 (by decide)

/-- C1, counterexample to the claim as stated: the written content is the
stripped join of the first `n_lines` lines, not the exact truncation of the
source (the trailing newline is gone), and a source with fewer than `n_lines`
lines makes `_create_dummy_data` raise instead of writing and returning 1. -/
theorem C1_cex :
    (create_dummy_file (.text ["a\n", "b\n"]) "h.txt" 1 none none none =
      .ok (1, [("h.txt", .text "a")]) ∧ ("a" : String) ≠ "a\n") ∧
    create_dummy_file (.text ["x\n"]) "i.txt" 2 none none none = .error "StopIteration" := by
  exact ⟨⟨rfl, by decide⟩, rfl⟩

/-! Claims C2 and C3: the `.json` branch. -/

/-- C2 (confirmed): for a `.json` destination whose loaded value (after
selecting `json_field` when given) is a dict, `_create_dummy_data` raises
`ValueError` exactly when some value of the dict is not a list; when every
value is a list it writes the dict with each list truncated to its first
`n_lines` elements (re-wrapped under `json_field` when that is given) and
returns 1. -/
theorem C2_json_dict (j : Json) (fields : List (String × Json)) (dst_path : String)
    (n_lines : Int) (json_field xml_tag match_text_files : Option String)
    (hline : is_line_by_line_text_file dst_path match_text_files = false)
    (hjson : pyEndsWith dst_path ".json" = true)
    (hsel : jsonSelectField j json_field = .ok (.obj fields))
    (hn : 0 ≤ n_lines) :
    (create_dummy_file (.jsonData j) dst_path n_lines json_field xml_tag match_text_files =
        .error "ValueError" ↔ fields.all (fun kv => isJsonArr kv.2) = false) ∧
    (fields.all (fun kv => isJsonArr kv.2) = true →
      create_dummy_file (.jsonData j) dst_path n_lines json_field xml_tag match_text_files =
        .ok (1, [(dst_path, .jsonOut (jsonWrap json_field
          (.obj (fields.map (fun kv => (kv.1, Json.arr ((jsonArrElems kv.2).take n_lines.toNat)))))))])) := by
  have hmain : create_dummy_file (.jsonData j) dst_path n_lines json_field xml_tag match_text_files =
      (match jsonHead (.obj fields) n_lines with
       | .error e => .error e
       | .ok fd => .ok (1, [(dst_path, .jsonOut (jsonWrap json_field fd))])) := by
    simp [create_dummy_file, hline, hjson, hsel]
  constructor
  · rw [hmain]
    cases hall : fields.all (fun kv => isJsonArr kv.2) with
    | true => simp [jsonHead, hall]
    | false => simp [jsonHead, hall]
  · intro hall
    rw [hmain]
    simp [jsonHead, hall, truncFields_eq_map n_lines hn fields hall]

/-- C2, witness: a two-column dict truncated to its first two rows, and a dict
with a non-list value raising `ValueError`. -/
theorem C2_json_dict_inst :
    create_dummy_file
        (.jsonData (.obj [("a", .arr [.num 1, .num 2, .num 3]), ("b", .arr [.num 4])]))
        "f.json" 2 none none none =
      .ok (1, [("f.json", .jsonOut (.obj [("a", .arr [.num 1, .num 2]), ("b", .arr [.num 4])]))]) ∧
    create_dummy_file (.jsonData (.obj [("a", .num 1)])) "g.json" 2 none none none =
      .error "ValueError" := by
  constructor
  · have h := (C2_json_dict (.obj [("a", .arr [.num 1, .num 2, .num 3]), ("b", .arr [.num 4])])
      [("a", .arr [.num 1, .num 2, .num 3]), ("b", .arr [.num 4])]
      "f.json" 2 none none none (by decide) (by decide) rfl (by decide)).2 rfl
    rw [h]
    rfl
  · exact (C2_json_dict (.obj [("a", .num 1)]) [("a", .num 1)] "g.json" 2 none none none
      (by decide) (by decide) rfl (by decide)).1.mpr rfl

/-- C3 (confirmed): for a `.json` destination whose loaded value (after
selecting `json_field` when given) is a list, `_create_dummy_data` writes the
first `n_lines` elements of the list, and whenever `json_field` is given the
truncated data is written wrapped back under that single key. -/
theorem C3_json_list (j : Json) (elems : List Json) (dst_path : String)
    (n_lines : Int) (json_field xml_tag match_text_files : Option String)
    (hline : is_line_by_line_text_file dst_path match_text_files = false)
    (hjson : pyEndsWith dst_path ".json" = true)
    (hsel : jsonSelectField j json_field = .ok (.arr elems))
    (hn : 0 ≤ n_lines) :
    create_dummy_file (.jsonData j) dst_path n_lines json_field xml_tag match_text_files =
      .ok (1, [(dst_path, .jsonOut (jsonWrap json_field (.arr (elems.take n_lines.toNat))))]) ∧
    (∀ f, json_field = some f →
      jsonWrap json_field (.arr (elems.take n_lines.toNat)) =
        .obj [(f, .arr (elems.take n_lines.toNat))]) := by
  constructor
  · simp [create_dummy_file, hline, hjson, hsel, jsonHead, pyTake_of_nonneg _ _ hn]
  · intro f hf
    subst hf
    rfl

/-- C3, witness: a top-level list truncated to two elements, and the same data
selected and re-wrapped through `json_field = "data"`. -/
theorem C3_json_list_inst :
    create_dummy_file (.jsonData (.arr [.str "x", .str "y", .str "z"])) "f.json" 2
        none none none =
      .ok (1, [("f.json", .jsonOut (.arr [.str "x", .str "y"]))]) ∧
    create_dummy_file (.jsonData (.obj [("data", .arr [.str "x", .str "y", .str "z"])]))
        "g.json" 2 (some "data") none none =
      .ok (1, [("g.json", .jsonOut (.obj [("data", .arr [.str "x", .str "y"])]))]) := by
  constructor
  · have h := (C3_json_list (.arr [.str "x", .str "y", .str "z"])
      [.str "x", .str "y", .str "z"] "f.json" 2 none none none
      (by decide) (by decide) rfl (by decide)).1
    rw [h]
    rfl
  · have h := (C3_json_list (.obj [("data", .arr [.str "x", .str "y", .str "z"])])
      [.str "x", .str "y", .str "z"] "g.json" 2 (some "data") none none
      (by decide) (by decide) rfl (by decide)).1
    rw [h]
    rfl

/-! Claim C4: the `.xml` branch. -/

theorem truncXml_node (xtag ptag : String) (n : Int) (t : String) (cs : XmlList) (cur : Int) :
    truncXml xtag ptag n (.node t cs) cur =
      if t = ptag then
        let keep := pyTakeLen (n - cur) (XmlList.countTag xtag cs)
        let r := truncChildren xtag ptag n cs keep (cur + (keep : Int))
        (.node t r.1, r.2)
      else
        let r := truncXmlList xtag ptag n cs cur
        (.node t r.1, r.2) := by
  rfl

theorem truncXml_fst_tag (xtag ptag : String) (n : Int) (e : Xml) (cur : Int) :
    (truncXml xtag ptag n e cur).1.tag = e.tag := by
  cases e with
  | node t cs =>
    rw [truncXml_node]
    split <;> rfl

theorem truncChildren_countTag (xtag ptag : String) (n : Int) :
    ∀ (cs : XmlList) (b : Nat) (cur : Int),
      XmlList.countTag xtag (truncChildren xtag ptag n cs b cur).1 =
        min b (XmlList.countTag xtag cs)
  | .nil, b, cur => by simp [truncChildren, XmlList.countTag]
  | .cons x rest, b, cur => by
    by_cases hx : x.tag = xtag
    · cases b with
      | zero =>
        have he : truncChildren xtag ptag n (.cons x rest) 0 cur =
            truncChildren xtag ptag n rest 0 cur := by
          simp [truncChildren, hx]
        rw [he, truncChildren_countTag xtag ptag n rest 0 cur]
        simp [XmlList.countTag]
      | succ b =>
        have he : truncChildren xtag ptag n (.cons x rest) (b + 1) cur =
            (.cons (truncXml xtag ptag n x cur).1
              (truncChildren xtag ptag n rest b (truncXml xtag ptag n x cur).2).1,
             (truncChildren xtag ptag n rest b (truncXml xtag ptag n x cur).2).2) := by
          simp [truncChildren, hx]
        rw [he]
        simp [XmlList.countTag, truncXml_fst_tag, hx,
          truncChildren_countTag xtag ptag n rest b (truncXml xtag ptag n x cur).2]
        omega
    · have he : truncChildren xtag ptag n (.cons x rest) b cur =
          (.cons (truncXml xtag ptag n x cur).1
            (truncChildren xtag ptag n rest b (truncXml xtag ptag n x cur).2).1,
           (truncChildren xtag ptag n rest b (truncXml xtag ptag n x cur).2).2) := by
        simp [truncChildren, hx]
      rw [he]
      simp [XmlList.countTag, truncXml_fst_tag, hx,
        truncChildren_countTag xtag ptag n rest b (truncXml xtag ptag n x cur).2]

mutual
theorem truncXml_snd_total (xtag ptag : String) (n : Int) :
    ∀ (e : Xml) (cur : Int),
      (truncXml xtag ptag n e cur).2 =
        cur + (countUnder xtag ptag (truncXml xtag ptag n e cur).1 : Int)
  | .node t cs, cur => by
    rw [truncXml_node]
    by_cases ht : t = ptag
    · simp only [if_pos ht]
      have hc := truncChildren_snd_total xtag ptag n cs
        (pyTakeLen (n - cur) (XmlList.countTag xtag cs))
        (cur + (pyTakeLen (n - cur) (XmlList.countTag xtag cs) : Int))
      have hk := truncChildren_countTag xtag ptag n cs
        (pyTakeLen (n - cur) (XmlList.countTag xtag cs))
        (cur + (pyTakeLen (n - cur) (XmlList.countTag xtag cs) : Int))
      have hle := pyTakeLen_le (n - cur) (XmlList.countTag xtag cs)
      simp only [countUnder, if_pos ht]
      omega
    · simp only [if_neg ht]
      have hc := truncXmlList_snd_total xtag ptag n cs cur
      simp only [countUnder, if_neg ht]
      omega
theorem truncChildren_snd_total (xtag ptag : String) (n : Int) :
    ∀ (cs : XmlList) (b : Nat) (cur : Int),
      (truncChildren xtag ptag n cs b cur).2 =
        cur + (countUnderList xtag ptag (truncChildren xtag ptag n cs b cur).1 : Int)
  | .nil, b, cur => by simp [truncChildren, countUnderList]
  | .cons x rest, b, cur => by
    by_cases hx : x.tag = xtag
    · cases b with
      | zero =>
        have he : truncChildren xtag ptag n (.cons x rest) 0 cur =
            truncChildren xtag ptag n rest 0 cur := by
          simp [truncChildren, hx]
        rw [he, truncChildren_snd_total xtag ptag n rest 0 cur]
      | succ b =>
        have he : truncChildren xtag ptag n (.cons x rest) (b + 1) cur =
            (.cons (truncXml xtag ptag n x cur).1
              (truncChildren xtag ptag n rest b (truncXml xtag ptag n x cur).2).1,
             (truncChildren xtag ptag n rest b (truncXml xtag ptag n x cur).2).2) := by
          simp [truncChildren, hx]
        rw [he]
        have h1 := truncXml_snd_total xtag ptag n x cur
        have h2 := truncChildren_snd_total xtag ptag n rest b (truncXml xtag ptag n x cur).2
        simp only [countUnderList]
        omega
    · have he : truncChildren xtag ptag n (.cons x rest) b cur =
          (.cons (truncXml xtag ptag n x cur).1
            (truncChildren xtag ptag n rest b (truncXml xtag ptag n x cur).2).1,
           (truncChildren xtag ptag n rest b (truncXml xtag ptag n x cur).2).2) := by
        simp [truncChildren, hx]
      rw [he]
      have h1 := truncXml_snd_total xtag ptag n x cur
      have h2 := truncChildren_snd_total xtag ptag n rest b (truncXml xtag ptag n x cur).2
      simp only [countUnderList]
      omega
theorem truncXmlList_snd_total (xtag ptag : String) (n : Int) :
    ∀ (cs : XmlList) (cur : Int),
      (truncXmlList xtag ptag n cs cur).2 =
        cur + (countUnderList xtag ptag (truncXmlList xtag ptag n cs cur).1 : Int)
  | .nil, cur => by simp [truncXmlList, countUnderList]
  | .cons x rest, cur => by
    have he : truncXmlList xtag ptag n (.cons x rest) cur =
        (.cons (truncXml xtag ptag n x cur).1
          (truncXmlList xtag ptag n rest (truncXml xtag ptag n x cur).2).1,
         (truncXmlList xtag ptag n rest (truncXml xtag ptag n x cur).2).2) := by
      simp [truncXmlList]
    rw [he]
    have h1 := truncXml_snd_total xtag ptag n x cur
    have h2 := truncXmlList_snd_total xtag ptag n rest (truncXml xtag ptag n x cur).2
    simp only [countUnderList]
    omega
end

mutual
theorem truncXml_snd_le (xtag ptag : String) (n : Int) :
    ∀ (e : Xml) (cur : Int), 0 ≤ cur → cur ≤ n →
      0 ≤ (truncXml xtag ptag n e cur).2 ∧ (truncXml xtag ptag n e cur).2 ≤ n
  | .node t cs, cur => by
    intro h0 hn
    rw [truncXml_node]
    by_cases ht : t = ptag
    · simp only [if_pos ht]
      have hkeep := pyTakeLen_le_toNat (n - cur) (XmlList.countTag xtag cs) (by omega)
      exact truncChildren_snd_le xtag ptag n cs
        (pyTakeLen (n - cur) (XmlList.countTag xtag cs))
        (cur + (pyTakeLen (n - cur) (XmlList.countTag xtag cs) : Int))
        (by omega) (by omega)
    · simp only [if_neg ht]
      exact truncXmlList_snd_le xtag ptag n cs cur h0 hn
theorem truncChildren_snd_le (xtag ptag : String) (n : Int) :
    ∀ (cs : XmlList) (b : Nat) (cur : Int), 0 ≤ cur → cur ≤ n →
      0 ≤ (truncChildren xtag ptag n cs b cur).2 ∧ (truncChildren xtag ptag n cs b cur).2 ≤ n
  | .nil, b, cur => by
    intro h0 hn
    simpa [truncChildren] using ⟨h0, hn⟩
  | .cons x rest, b, cur => by
    intro h0 hn
    by_cases hx : x.tag = xtag
    · cases b with
      | zero =>
        have he : truncChildren xtag ptag n (.cons x rest) 0 cur =
            truncChildren xtag ptag n rest 0 cur := by
          simp [truncChildren, hx]
        rw [he]
        exact truncChildren_snd_le xtag ptag n rest 0 cur h0 hn
      | succ b =>
        have he : truncChildren xtag ptag n (.cons x rest) (b + 1) cur =
            (.cons (truncXml xtag ptag n x cur).1
              (truncChildren xtag ptag n rest b (truncXml xtag ptag n x cur).2).1,
             (truncChildren xtag ptag n rest b (truncXml xtag ptag n x cur).2).2) := by
          simp [truncChildren, hx]
        rw [he]
        have h1 := truncXml_snd_le xtag ptag n x cur h0 hn
        exact truncChildren_snd_le xtag ptag n rest b (truncXml xtag ptag n x cur).2 h1.1 h1.2
    · have he : truncChildren xtag ptag n (.cons x rest) b cur =
          (.cons (truncXml xtag ptag n x cur).1
            (truncChildren xtag ptag n rest b (truncXml xtag ptag n x cur).2).1,
           (truncChildren xtag ptag n rest b (truncXml xtag ptag n x cur).2).2) := by
        simp [truncChildren, hx]
      rw [he]
      have h1 := truncXml_snd_le xtag ptag n x cur h0 hn
      exact truncChildren_snd_le xtag ptag n rest b (truncXml xtag ptag n x cur).2 h1.1 h1.2
theorem truncXmlList_snd_le (xtag ptag : String) (n : Int) :
    ∀ (cs : XmlList) (cur : Int), 0 ≤ cur → cur ≤ n →
      0 ≤ (truncXmlList xtag ptag n cs cur).2 ∧ (truncXmlList xtag ptag n cs cur).2 ≤ n
  | .nil, cur => by
    intro h0 hn
    simpa [truncXmlList] using ⟨h0, hn⟩
  | .cons x rest, cur => by
    intro h0 hn
    have he : truncXmlList xtag ptag n (.cons x rest) cur =
        (.cons (truncXml xtag ptag n x cur).1
          (truncXmlList xtag ptag n rest (truncXml xtag ptag n x cur).2).1,
         (truncXmlList xtag ptag n rest (truncXml xtag ptag n x cur).2).2) := by
      simp [truncXmlList]
    rw [he]
    have h1 := truncXml_snd_le xtag ptag n x cur h0 hn
    exact truncXmlList_snd_le xtag ptag n rest (truncXml xtag ptag n x cur).2 h1.1 h1.2
end

/-- C4, amended: for an `.xml` destination with `xml_tag = xtag` such that the
pre-order search finds a parent tag `ptag`, `_create_dummy_data` writes the
truncated tree and returns 1, and in the written tree the number of `xtag`
elements that are children of elements tagged `ptag` (the inferred parent tag)
is at most `n_lines`; `xtag` elements under parents with any other tag are not
removed, so the bound holds only for the inferred parent tag. -/
theorem C4_xml_truncation (x : Xml) (dst_path : String) (n_lines : Int)
    (json_field match_text_files : Option String) (xtag ptag : String)
    (hline : is_line_by_line_text_file dst_path match_text_files = false)
    (hjson : pyEndsWith dst_path ".json" = false)
    (hxml : pyEndsWith dst_path ".xml" = true)
    (hn : 0 ≤ n_lines)
    (hp : findParentTag xtag x = some ptag) :
    create_dummy_file (.xmlData x) dst_path n_lines json_field (some xtag) match_text_files =
      .ok (1, [(dst_path, .xmlOut (truncXml xtag ptag n_lines x 0).1)]) ∧
    countUnder xtag ptag (truncXml xtag ptag n_lines x 0).1 ≤ n_lines.toNat := by
  constructor
  · simp [create_dummy_file, hline, hjson, hxml, hp]
  · have h1 := truncXml_snd_total xtag ptag n_lines x 0
    have h2 := (truncXml_snd_le xtag ptag n_lines x 0 le_rfl hn).2
    omega

/-- C4, witness: a tree whose root `doc` holds three `row` children, truncated
to the first two. -/
theorem C4_xml_truncation_inst :
    create_dummy_file
        (.xmlData (.node "doc" (.cons (.node "row" .nil)
          (.cons (.node "row" .nil) (.cons (.node "row" .nil) .nil)))))
        "f.xml" 2 none (some "row") none =
      .ok (1, [("f.xml", .xmlOut (.node "doc"
        (.cons (.node "row" .nil) (.cons (.node "row" .nil) .nil))))]) ∧
    countUnder "row" "doc" (.node "doc"
      (.cons (.node "row" .nil) (.cons (.node "row" .nil) .nil))) ≤ 2 := by
  have h := C4_xml_truncation
    (.node "doc" (.cons (.node "row" .nil) (.cons (.node "row" .nil) (.cons (.node "row" .nil) .nil))))
    "f.xml" 2 none none "row" "doc" (by decide) (by decide) (by decide) (by decide) rfl
  exact ⟨h.1, by decide⟩

/-- C4, counterexample to the claim as stated: with `n_lines = 1`, `item`
elements under the root `a` (the inferred parent tag) are truncated, but the
two `item` elements under the differently tagged `b` survive, so the written
tree keeps 3 `item` child elements in total, and they are not the first 1 in
iteration order. -/
theorem C4_cex :
    create_dummy_file (.xmlData cexTree) "f.xml" 1 none (some "item") none =
      .ok (1, [("f.xml", .xmlOut cexTree)]) ∧
    countChildrenAll "item" cexTree = 3 ∧ ¬(countChildrenAll "item" cexTree ≤ 1) := by
  exact ⟨rfl, rfl, by decide⟩

/-! Claim C5: failure handling of `_create_dummy_data` on a single file. -/

/-- C5, amended: only two of the listed failure cases are handled with a
warning and a normal return (an unsupported format returns 0; an `.xml` file
with `xml_tag` set to `None` returns 1 without writing); the other listed
cases raise: a malformed JSON column layout raises `ValueError`, a missing
`xml_tag` in the tree fails the assertion (`AssertionError`), and a line-based
source with fewer than `n_lines` lines raises `StopIteration`. -/
theorem C5_failure_modes (c : FileContent) (dst_path : String) (n_lines : Int)
    (json_field xml_tag match_text_files : Option String) :
    (is_line_by_line_text_file dst_path match_text_files = false →
      pyEndsWith dst_path ".json" = false → pyEndsWith dst_path ".xml" = false →
      create_dummy_file c dst_path n_lines json_field xml_tag match_text_files = .ok (0, [])) ∧
    (is_line_by_line_text_file dst_path match_text_files = false →
      pyEndsWith dst_path ".json" = false → pyEndsWith dst_path ".xml" = true →
      xml_tag = none →
      create_dummy_file c dst_path n_lines json_field xml_tag match_text_files = .ok (1, [])) ∧
    (∀ j fields, is_line_by_line_text_file dst_path match_text_files = false →
      pyEndsWith dst_path ".json" = true → c = .jsonData j →
      jsonSelectField j json_field = .ok (.obj fields) →
      fields.all (fun kv => isJsonArr kv.2) = false →
      create_dummy_file c dst_path n_lines json_field xml_tag match_text_files =
        .error "ValueError") ∧
    (∀ x xtag, is_line_by_line_text_file dst_path match_text_files = false →
      pyEndsWith dst_path ".json" = false → pyEndsWith dst_path ".xml" = true →
      xml_tag = some xtag → c = .xmlData x → findParentTag xtag x = none →
      create_dummy_file c dst_path n_lines json_field xml_tag match_text_files =
        .error "AssertionError") ∧
    (∀ lines, is_line_by_line_text_file dst_path match_text_files = true →
      c = .text lines → lines.length < n_lines.toNat →
      create_dummy_file c dst_path n_lines json_field xml_tag match_text_files =
        .error "StopIteration") := by
  refine ⟨?_, ?_, ?_, ?_, ?_⟩
  · intro h1 h2 h3
    simp [create_dummy_file, h1, h2, h3]
  · intro h1 h2 h3 h4
    subst h4
    simp [create_dummy_file, h1, h2, h3]
  · intro j fields h1 h2 hc hsel hall
    subst hc
    simp [create_dummy_file, h1, h2, hsel, jsonHead, hall]
  · intro x xtag h1 h2 h3 ht hc hp
    subst ht
    subst hc
    simp [create_dummy_file, h1, h2, h3, hp]
  · intro lines h1 hc hlen
    subst hc
    simp [create_dummy_file, h1, hlen]

/-- C5, witness: an `.xml` destination with `xml_tag = None` warns and returns
1 without writing, and an unsupported `.bin` destination returns 0. -/
theorem C5_failure_modes_inst :
    create_dummy_file (.text ["x\n"]) "f.xml" 5 none none none = .ok (1, []) ∧
    create_dummy_file (.text ["x\n"]) "f.bin" 5 none none none = .ok (0, []) := by
  constructor
  · exact (C5_failure_modes (.text ["x\n"]) "f.xml" 5 none none none).2.1
      (by decide) (by decide) (by decide) rfl
  · exact (C5_failure_modes (.text ["x\n"]) "f.bin" 5 none none none).1
      (by decide) (by decide) (by decide)

/-- C5, counterexample to the claim as stated: three of the listed cases raise
exceptions instead of warning and returning normally. -/
theorem C5_cex :
    create_dummy_file (.jsonData (.obj [("col", .str "v")])) "a.json" 5 none none none =
      .error "ValueError" ∧
    create_dummy_file (.xmlData (.node "item" .nil)) "b.xml" 5 none (some "item") none =
      .error "AssertionError" ∧
    create_dummy_file (.text ["only\n"]) "c.txt" 3 none none none =
      .error "StopIteration" := by
  exact ⟨rfl, rfl, rfl⟩

/-! Claims C6 and C7: the shadow download manager. -/

mutual
theorem flatten_length_eq {α β : Type} :
    ∀ (o : Nested α) (m : Nested β), sameShape o m = true →
      (flatten o).length = (flatten m).length
  | .leaf _, .leaf _, _ => rfl
  | .listN xs, .listN ys, h => flattenList_length_eq xs ys h
  | .dictN xs, .dictN ys, h => flattenDict_length_eq xs ys h
  | .leaf _, .listN _, h => by simp [sameShape] at h
  | .leaf _, .dictN _, h => by simp [sameShape] at h
  | .listN _, .leaf _, h => by simp [sameShape] at h
  | .listN _, .dictN _, h => by simp [sameShape] at h
  | .dictN _, .leaf _, h => by simp [sameShape] at h
  | .dictN _, .listN _, h => by simp [sameShape] at h
theorem flattenList_length_eq {α β : Type} :
    ∀ (xs : NestedList α) (ys : NestedList β), sameShapeList xs ys = true →
      (flattenList xs).length = (flattenList ys).length
  | .nil, .nil, _ => rfl
  | .cons x xs, .cons y ys, h => by
    simp only [sameShapeList, Bool.and_eq_true] at h
    simp only [flattenList, List.length_append,
      flatten_length_eq x y h.1, flattenList_length_eq xs ys h.2]
  | .nil, .cons _ _, h => by simp [sameShapeList] at h
  | .cons _ _, .nil, h => by simp [sameShapeList] at h
theorem flattenDict_length_eq {α β : Type} :
    ∀ (xs : NestedDict α) (ys : NestedDict β), sameShapeDict xs ys = true →
      (flattenDict xs).length = (flattenDict ys).length
  | .nil, .nil, _ => rfl
  | .cons _ x xs, .cons _ y ys, h => by
    simp only [sameShapeDict, Bool.and_eq_true] at h
    simp only [flattenDict, List.length_append,
      flatten_length_eq x y h.1, flattenDict_length_eq xs ys h.2]
  | .nil, .cons _ _ _, h => by simp [sameShapeDict] at h
  | .cons _ _ _, .nil, h => by simp [sameShapeDict] at h
end

theorem dmRun_spec (calls : List DMCall) :
    ∀ (s : DMState),
      (dmRun s calls).downloaded_paths =
        s.downloaded_paths ++ (calls.map (fun c => flatten c.realOutput)).flatten ∧
      (dmRun s calls).expected_dummy_paths =
        s.expected_dummy_paths ++ (calls.map (fun c => flatten c.mockOutput)).flatten := by
  induction calls with
  | nil => intro s; simp [dmRun]
  | cons c rest ih =>
    intro s
    have h := ih (dmStep s c)
    refine ⟨?_, ?_⟩
    · show (dmRun (dmStep s c) rest).downloaded_paths = _
      rw [h.1]
      cases c with
      | download p m =>
        simp [dmStep, dmDownload, dmRecord, DMCall.realOutput, List.append_assoc]
      | downloadAndExtract p ex m =>
        simp [dmStep, dmDownloadAndExtract, dmRecord, DMCall.realOutput, List.append_assoc]
    · show (dmRun (dmStep s c) rest).expected_dummy_paths = _
      rw [h.2]
      cases c with
      | download p m =>
        simp [dmStep, dmDownload, dmRecord, DMCall.mockOutput, List.append_assoc]
      | downloadAndExtract p ex m =>
        simp [dmStep, dmDownloadAndExtract, dmRecord, DMCall.mockOutput, List.append_assoc]

theorem calls_zip_join (calls : List DMCall) :
    calls.all (fun c => sameShape c.realOutput c.mockOutput) = true →
      (calls.map (fun c => flatten c.realOutput)).flatten.length =
        (calls.map (fun c => flatten c.mockOutput)).flatten.length ∧
      ((calls.map (fun c => flatten c.realOutput)).flatten.zip
          (calls.map (fun c => flatten c.mockOutput)).flatten =
        (calls.map (fun c => (flatten c.realOutput).zip (flatten c.mockOutput))).flatten) := by
  induction calls with
  | nil => intro _; simp
  | cons c rest ih =>
    intro h
    simp only [List.all_cons, Bool.and_eq_true] at h
    have hlen := flatten_length_eq _ _ h.1
    obtain ⟨ih1, ih2⟩ := ih h.2
    constructor
    · simp [hlen, ih1]
    · simp only [List.map_cons, List.flatten_cons]
      rw [List.zip_append hlen, ih2]

/-- C6 (confirmed): every `download` / `download_and_extract` call appends the
flattened real paths to `downloaded_paths` and the flattened mock paths to
`expected_dummy_paths`; after any sequence of calls whose real and mock outputs
have the same nested shape, the two lists have equal length and their zip is
the concatenation of the per-call real/mock path pairings. -/
theorem C6_shadow_recording (calls : List DMCall)
    (h : calls.all (fun c => sameShape c.realOutput c.mockOutput) = true) :
    (dmRun DMState.init calls).downloaded_paths.length =
      (dmRun DMState.init calls).expected_dummy_paths.length ∧
    (dmRun DMState.init calls).downloaded_paths.zip
        (dmRun DMState.init calls).expected_dummy_paths =
      (calls.map (fun c => (flatten c.realOutput).zip (flatten c.mockOutput))).flatten := by
  obtain ⟨hd, he⟩ := dmRun_spec calls DMState.init
  rw [hd, he]
  simp only [DMState.init, List.nil_append]
  exact calls_zip_join calls h

/-- C6, witness: a two-URL `download` call followed by a
`download_and_extract` call. -/
theorem C6_shadow_recording_inst :
    (dmRun DMState.init c6calls).downloaded_paths.length =
      (dmRun DMState.init c6calls).expected_dummy_paths.length ∧
    (dmRun DMState.init c6calls).downloaded_paths.zip
        (dmRun DMState.init c6calls).expected_dummy_paths =
      (c6calls.map (fun c => (flatten c.realOutput).zip (flatten c.mockOutput))).flatten :=
  C6_shadow_recording c6calls rfl

/-- C7 (confirmed): `download` returns exactly what the parent
`DownloadManager.download` returns and `download_and_extract` returns exactly
`extract(download(url_or_urls))` of the parent manager; the shadow recording
never changes the returned value. -/
theorem C7_returns_parent_output (parent_output dummy_output parent_downloaded : Nested String)
    (parent_extract : Nested String → Nested String) (s : DMState) :
    (dmDownload parent_output dummy_output s).1 = parent_output ∧
    (dmDownloadAndExtract parent_downloaded parent_extract dummy_output s).1 =
      parent_extract parent_downloaded :=
  ⟨rfl, rfl⟩

/-! Claim C8: what `auto_generate_dummy_data_folder` returning `True` means. -/

theorem combineRuns_ok_elim (a b : Except String (Nat × List (String × Written)))
    (k : Nat) (w : List (String × Written)) (h : combineRuns a b = .ok (k, w)) :
    ∃ k1 w1 k2 w2, a = .ok (k1, w1) ∧ b = .ok (k2, w2) ∧ k = k1 + k2 ∧ w = w1 ++ w2 := by
  cases a with
  | error e => simp [combineRuns] at h
  | ok p =>
    obtain ⟨k1, w1⟩ := p
    cases b with
    | error e => simp [combineRuns] at h
    | ok q =>
      obtain ⟨k2, w2⟩ := q
      simp only [combineRuns, Except.ok.injEq, Prod.mk.injEq] at h
      exact ⟨k1, w1, k2, w2, rfl, rfl, h.1.symm, h.2.symm⟩

theorem create_dummy_file_pos_iff (c : FileContent) (dst_path : String) (n_lines : Int)
    (json_field xml_tag match_text_files : Option String) (k : Nat)
    (w : List (String × Written))
    (h : create_dummy_file c dst_path n_lines json_field xml_tag match_text_files = .ok (k, w)) :
    0 < k ↔ (w ≠ [] ∨ file_hits_xml_none dst_path xml_tag match_text_files = true) := by
  by_cases h1 : is_line_by_line_text_file dst_path match_text_files = true
  · have hhit : file_hits_xml_none dst_path xml_tag match_text_files = false := by
      simp [file_hits_xml_none, h1]
    cases c with
    | text lines =>
      by_cases h2 : lines.length < n_lines.toNat
      · simp [create_dummy_file, h1, h2] at h
      · simp [create_dummy_file, h1, h2] at h
        obtain ⟨hk, hw⟩ := h
        subst hk
        subst hw
        simp [hhit]
    | jsonData j => simp [create_dummy_file, h1] at h
    | xmlData x => simp [create_dummy_file, h1] at h
  · have h1f : is_line_by_line_text_file dst_path match_text_files = false := by
      simpa using h1
    by_cases h2 : pyEndsWith dst_path ".json" = true
    · have hhit : file_hits_xml_none dst_path xml_tag match_text_files = false := by
        simp [file_hits_xml_none, h2]
      cases c with
      | text lines => simp [create_dummy_file, h1f, h2] at h
      | xmlData x => simp [create_dummy_file, h1f, h2] at h
      | jsonData j =>
        cases hsel : jsonSelectField j json_field with
        | error e => simp [create_dummy_file, h1f, h2, hsel] at h
        | ok jd =>
          cases hhead : jsonHead jd n_lines with
          | error e => simp [create_dummy_file, h1f, h2, hsel, hhead] at h
          | ok fd =>
            simp [create_dummy_file, h1f, h2, hsel, hhead] at h
            obtain ⟨hk, hw⟩ := h
            subst hk
            subst hw
            simp [hhit]
    · have h2f : pyEndsWith dst_path ".json" = false := by simpa using h2
      by_cases h3 : pyEndsWith dst_path ".xml" = true
      · cases xml_tag with
        | none =>
          simp [create_dummy_file, h1f, h2f, h3] at h
          obtain ⟨hk, hw⟩ := h
          subst hk
          subst hw
          simp [file_hits_xml_none, h1f, h2f, h3]
        | some xtag =>
          have hhit : file_hits_xml_none dst_path (some xtag) match_text_files = false := by
            simp [file_hits_xml_none]
          cases c with
          | text lines => simp [create_dummy_file, h1f, h2f, h3] at h
          | jsonData j => simp [create_dummy_file, h1f, h2f, h3] at h
          | xmlData x =>
            cases hp : findParentTag xtag x with
            | none => simp [create_dummy_file, h1f, h2f, h3, hp] at h
            | some ptag =>
              simp [create_dummy_file, h1f, h2f, h3, hp] at h
              obtain ⟨hk, hw⟩ := h
              subst hk
              subst hw
              simp [hhit]
      · have h3f : pyEndsWith dst_path ".xml" = false := by simpa using h3
        simp [create_dummy_file, h1f, h2f, h3f] at h
        obtain ⟨hk, hw⟩ := h
        subst hk
        subst hw
        simp [file_hits_xml_none, h3f]

set_option maxHeartbeats 1600000 in
mutual
theorem run_dir_pos_iff (n_lines : Int) (json_field xml_tag match_text_files : Option String) :
    ∀ (es : EntryList) (dst : String) (k : Nat) (w : List (String × Written)),
      run_dir n_lines json_field xml_tag match_text_files es dst = .ok (k, w) →
      (0 < k ↔ (w ≠ [] ∨ dirHitsXmlNone xml_tag match_text_files es dst = true))
  | es, dst, k, w => by
    intro h
    simp only [run_dir] at h
    obtain ⟨k1, w1, k2, w2, ha, hb, hk, hw⟩ := combineRuns_ok_elim _ _ _ _ h
    have i1 := runFilesOf_pos_iff n_lines json_field xml_tag match_text_files es dst k1 w1 ha
    have i2 := runSubdirsOf_pos_iff n_lines json_field xml_tag match_text_files es dst k2 w2 hb
    subst hk
    subst hw
    have hsplit : (0 < k1 + k2) ↔ (0 < k1 ∨ 0 < k2) := by omega
    rw [hsplit, i1, i2]
    simp only [dirHitsXmlNone, Bool.or_eq_true, ne_eq, List.append_eq_nil]
    tauto
theorem runFilesOf_pos_iff (n_lines : Int) (json_field xml_tag match_text_files : Option String) :
    ∀ (es : EntryList) (dst : String) (k : Nat) (w : List (String × Written)),
      runFilesOf n_lines json_field xml_tag match_text_files es dst = .ok (k, w) →
      (0 < k ↔ (w ≠ [] ∨ filesHitXmlNone xml_tag match_text_files es dst = true))
  | .nil, dst, k, w => by
    intro h
    simp only [runFilesOf, Except.ok.injEq, Prod.mk.injEq] at h
    obtain ⟨hk, hw⟩ := h
    subst hk
    subst hw
    simp [filesHitXmlNone]
  | .cons name (.file c) rest, dst, k, w => by
    intro h
    simp only [runFilesOf] at h
    obtain ⟨k1, w1, k2, w2, ha, hb, hk, hw⟩ := combineRuns_ok_elim _ _ _ _ h
    have i2 := runFilesOf_pos_iff n_lines json_field xml_tag match_text_files rest dst k2 w2 hb
    subst hk
    subst hw
    have hsplit : (0 < k1 + k2) ↔ (0 < k1 ∨ 0 < k2) := by omega
    rw [hsplit, i2]
    by_cases hname : pyStartsWith name "." = true
    · rw [if_pos hname] at ha
      simp only [Except.ok.injEq, Prod.mk.injEq] at ha
      obtain ⟨hk1, hw1⟩ := ha
      subst hk1
      subst hw1
      simp only [filesHitXmlNone, hname, Bool.not_true, Bool.false_and, Bool.false_or,
        Bool.or_eq_true, ne_eq, List.nil_append]
      tauto
    · rw [if_neg hname] at ha
      have hnf : pyStartsWith name "." = false :=
        Bool.not_eq_true _ ▸ Bool.of_not_eq_true hname
      have i1 := create_dummy_file_pos_iff c (pathJoin dst name) n_lines json_field xml_tag
        match_text_files k1 w1 ha
      rw [i1]
      simp only [filesHitXmlNone, hnf, Bool.not_false, Bool.true_and, Bool.or_eq_true,
        ne_eq, List.append_eq_nil]
      tauto
  | .cons name (.dir es2) rest, dst, k, w => by
    intro h
    simp only [runFilesOf] at h
    have := runFilesOf_pos_iff n_lines json_field xml_tag match_text_files rest dst k w h
    rw [this]
    simp [filesHitXmlNone]
theorem runSubdirsOf_pos_iff (n_lines : Int) (json_field xml_tag match_text_files : Option String) :
    ∀ (es : EntryList) (dst : String) (k : Nat) (w : List (String × Written)),
      runSubdirsOf n_lines json_field xml_tag match_text_files es dst = .ok (k, w) →
      (0 < k ↔ (w ≠ [] ∨ subdirsHitXmlNone xml_tag match_text_files es dst = true))
  | .nil, dst, k, w => by
    intro h
    simp only [runSubdirsOf, Except.ok.injEq, Prod.mk.injEq] at h
    obtain ⟨hk, hw⟩ := h
    subst hk
    subst hw
    simp [subdirsHitXmlNone]
  | .cons name (.dir es2) rest, dst, k, w => by
    intro h
    simp only [runSubdirsOf] at h
    obtain ⟨k1, w1, k2, w2, ha, hb, hk, hw⟩ := combineRuns_ok_elim _ _ _ _ h
    have i1 := run_dir_pos_iff n_lines json_field xml_tag match_text_files es2
      (pathJoin dst name) k1 w1 ha
    have i2 := runSubdirsOf_pos_iff n_lines json_field xml_tag match_text_files rest dst k2 w2 hb
    subst hk
    subst hw
    have hsplit : (0 < k1 + k2) ↔ (0 < k1 ∨ 0 < k2) := by omega
    rw [hsplit, i1, i2]
    simp only [subdirsHitXmlNone, Bool.or_eq_true, ne_eq, List.append_eq_nil]
    tauto
  | .cons name (.file c) rest, dst, k, w => by
    intro h
    simp only [runSubdirsOf] at h
    have := runSubdirsOf_pos_iff n_lines json_field xml_tag match_text_files rest dst k w h
    rw [this]
    simp [subdirsHitXmlNone]
end

theorem create_dummy_data_pos_iff (src : Option Source) (dst : String) (n_lines : Int)
    (json_field xml_tag match_text_files : Option String) (k : Nat)
    (w : List (String × Written))
    (h : create_dummy_data src dst n_lines json_field xml_tag match_text_files =
      .ok (some k, w)) :
    0 < k ↔ (w ≠ [] ∨ sourceHitsXmlNone xml_tag match_text_files src dst = true) := by
  cases src with
  | none => simp [create_dummy_data] at h
  | some s =>
    cases s with
    | file c =>
      simp only [create_dummy_data] at h
      cases hcf : create_dummy_file c dst n_lines json_field xml_tag match_text_files with
      | error e => rw [hcf] at h; simp at h
      | ok p =>
        rw [hcf] at h
        obtain ⟨k1, w1⟩ := p
        simp only [Except.ok.injEq, Prod.mk.injEq, Option.some.injEq] at h
        obtain ⟨hk, hw⟩ := h
        subst hk
        subst hw
        simpa [sourceHitsXmlNone] using
          create_dummy_file_pos_iff c dst n_lines json_field xml_tag match_text_files k1 w1 hcf
    | dir es =>
      simp only [create_dummy_data] at h
      cases hrd : run_dir n_lines json_field xml_tag match_text_files es dst with
      | error e => rw [hrd] at h; simp at h
      | ok p =>
        rw [hrd] at h
        obtain ⟨k1, w1⟩ := p
        simp only [Except.ok.injEq, Prod.mk.injEq, Option.some.injEq] at h
        obtain ⟨hk, hw⟩ := h
        subst hk
        subst hw
        simpa [sourceHitsXmlNone] using
          run_dir_pos_iff n_lines json_field xml_tag match_text_files es dst k1 w1 hrd

theorem autoGenerateTotal_pos_iff (n_lines : Int)
    (json_field xml_tag match_text_files : Option String) :
    ∀ (pairs : List (Option Source × String)) (total : Nat) (w : List (String × Written)),
      autoGenerateTotal n_lines json_field xml_tag match_text_files pairs = .ok (total, w) →
      (0 < total ↔ (w ≠ [] ∨
        pairs.any (fun p => sourceHitsXmlNone xml_tag match_text_files p.1 p.2) = true)) := by
  intro pairs
  induction pairs with
  | nil =>
    intro total w h
    simp only [autoGenerateTotal, Except.ok.injEq, Prod.mk.injEq] at h
    obtain ⟨ht, hw⟩ := h
    subst ht
    subst hw
    simp
  | cons p rest ih =>
    intro total w h
    obtain ⟨src, dst⟩ := p
    simp only [autoGenerateTotal] at h
    cases hcd : create_dummy_data src dst n_lines json_field xml_tag match_text_files with
    | error e => rw [hcd] at h; simp at h
    | ok q =>
      rw [hcd] at h
      obtain ⟨kopt, w1⟩ := q
      cases kopt with
      | none => simp at h
      | some k1 =>
        cases hrest : autoGenerateTotal n_lines json_field xml_tag match_text_files rest with
        | error e => rw [hrest] at h; simp at h
        | ok r =>
          rw [hrest] at h
          obtain ⟨t2, w2⟩ := r
          simp only [Except.ok.injEq, Prod.mk.injEq] at h
          obtain ⟨ht, hw⟩ := h
          subst ht
          subst hw
          have i1 := create_dummy_data_pos_iff src dst n_lines json_field xml_tag
            match_text_files k1 w1 hcd
          have i2 := ih t2 w2 hrest
          have hsplit : (0 < t2 + k1) ↔ (0 < k1 ∨ 0 < t2) := by omega
          rw [hsplit, i1, i2]
          simp only [List.any_cons, Bool.or_eq_true, ne_eq, List.append_eq_nil]
          tauto

/-- C8, amended: `auto_generate_dummy_data_folder` returns `True` iff at least
one dummy data file was actually created OR at least one processed source file
fell into the `.xml` branch with `xml_tag` set to `None` (that branch writes
nothing but still contributes 1 to the total); in particular a source whose
only match is that branch does count toward a `True` result. -/
theorem C8_auto_generate_true_iff (pairs : List (Option Source × String)) (n_lines : Int)
    (json_field xml_tag match_text_files : Option String) (b : Bool)
    (w : List (String × Written))
    (h : auto_generate_dummy_data_folder pairs n_lines json_field xml_tag match_text_files =
      .ok (b, w)) :
    b = true ↔ (w ≠ [] ∨
      pairs.any (fun p => sourceHitsXmlNone xml_tag match_text_files p.1 p.2) = true) := by
  unfold auto_generate_dummy_data_folder at h
  cases htot : autoGenerateTotal n_lines json_field xml_tag match_text_files pairs with
  | error e => rw [htot] at h; simp at h
  | ok r =>
    rw [htot] at h
    obtain ⟨total, w2⟩ := r
    simp only [Except.ok.injEq, Prod.mk.injEq] at h
    obtain ⟨hb, hw⟩ := h
    have hiff := autoGenerateTotal_pos_iff n_lines json_field xml_tag match_text_files
      pairs total w2 htot
    subst hw
    rw [← hb]
    simpa [decide_eq_true_iff] using hiff

/-- C8, witness: one `.xml` source with `xml_tag = None` makes the run return
`True` with an empty list of writes. -/
theorem C8_auto_generate_true_iff_inst :
    (true = true) ↔ (([] : List (String × Written)) ≠ [] ∨
      ([(some (Source.file (.xmlData (.node "r" XmlList.nil))), "d.xml")].any
        (fun p => sourceHitsXmlNone none none p.1 p.2)) = true) :=
  C8_auto_generate_true_iff
    [(some (Source.file (.xmlData (.node "r" XmlList.nil))), "d.xml")] 5 none none none
    true [] rfl

/-- C8, counterexample to the claim as stated: a single `.xml` source with
`xml_tag = None` creates no file at all, yet `auto_generate_dummy_data_folder`
returns `True`. -/
theorem C8_cex :
    auto_generate_dummy_data_folder
      [(some (Source.file (.xmlData (.node "r" XmlList.nil))), "d.xml")] 5 none none none =
      .ok (true, []) := rfl

/-! Claim C9: the directory branch of `_create_dummy_data`. -/

theorem combineRuns_ok_zero_left (b : Except String (Nat × List (String × Written))) :
    combineRuns (.ok (0, [])) b = b := by
  cases b with
  | error e => rfl
  | ok p =>
    obtain ⟨k, w⟩ := p
    simp [combineRuns]

theorem combineRuns_assoc (a b c : Except String (Nat × List (String × Written))) :
    combineRuns (combineRuns a b) c = combineRuns a (combineRuns b c) := by
  cases a with
  | error e => rfl
  | ok p =>
    obtain ⟨k1, w1⟩ := p
    cases b with
    | error e => rfl
    | ok q =>
      obtain ⟨k2, w2⟩ := q
      cases c with
      | error e => rfl
      | ok r =>
        obtain ⟨k3, w3⟩ := r
        simp [combineRuns, Nat.add_assoc, List.append_assoc]

theorem runRecords_append (n_lines : Int) (json_field xml_tag match_text_files : Option String) :
    ∀ (l1 l2 : List (String × String × FileContent)),
      runRecords n_lines json_field xml_tag match_text_files (l1 ++ l2) =
        combineRuns (runRecords n_lines json_field xml_tag match_text_files l1)
          (runRecords n_lines json_field xml_tag match_text_files l2) := by
  intro l1 l2
  induction l1 with
  | nil => simp [runRecords, combineRuns_ok_zero_left]
  | cons r rest ih =>
    obtain ⟨dstFile, name, c⟩ := r
    simp only [List.cons_append, runRecords, combineRuns_assoc]
    rw [show rest.append l2 = rest ++ l2 from rfl, ih]

set_option maxHeartbeats 1600000 in
mutual
theorem run_dir_eq_runRecords (n_lines : Int) (json_field xml_tag match_text_files : Option String) :
    ∀ (es : EntryList) (dst : String),
      run_dir n_lines json_field xml_tag match_text_files es dst =
        runRecords n_lines json_field xml_tag match_text_files (walkRecords es dst)
  | es, dst => by
    rw [show walkRecords es dst = walkFilesRecords es dst ++ walkSubdirsRecords es dst from by
      simp [walkRecords]]
    rw [runRecords_append]
    simp only [run_dir]
    rw [runFilesOf_eq_runRecords n_lines json_field xml_tag match_text_files es dst,
      runSubdirsOf_eq_runRecords n_lines json_field xml_tag match_text_files es dst]
theorem runFilesOf_eq_runRecords (n_lines : Int) (json_field xml_tag match_text_files : Option String) :
    ∀ (es : EntryList) (dst : String),
      runFilesOf n_lines json_field xml_tag match_text_files es dst =
        runRecords n_lines json_field xml_tag match_text_files (walkFilesRecords es dst)
  | .nil, dst => by simp [runFilesOf, walkFilesRecords, runRecords]
  | .cons name (.file c) rest, dst => by
    simp only [runFilesOf, walkFilesRecords, runRecords]
    rw [runFilesOf_eq_runRecords n_lines json_field xml_tag match_text_files rest dst]
  | .cons name (.dir es2) rest, dst => by
    simp only [runFilesOf, walkFilesRecords]
    exact runFilesOf_eq_runRecords n_lines json_field xml_tag match_text_files rest dst
theorem runSubdirsOf_eq_runRecords (n_lines : Int) (json_field xml_tag match_text_files : Option String) :
    ∀ (es : EntryList) (dst : String),
      runSubdirsOf n_lines json_field xml_tag match_text_files es dst =
        runRecords n_lines json_field xml_tag match_text_files (walkSubdirsRecords es dst)
  | .nil, dst => by simp [runSubdirsOf, walkSubdirsRecords, runRecords]
  | .cons name (.dir es2) rest, dst => by
    simp only [runSubdirsOf, walkSubdirsRecords]
    rw [runRecords_append,
      run_dir_eq_runRecords n_lines json_field xml_tag match_text_files es2 (pathJoin dst name),
      runSubdirsOf_eq_runRecords n_lines json_field xml_tag match_text_files rest dst]
  | .cons name (.file c) rest, dst => by
    simp only [runSubdirsOf, walkSubdirsRecords]
    exact runSubdirsOf_eq_runRecords n_lines json_field xml_tag match_text_files rest dst
end

/-- C9 (confirmed): on a directory source `_create_dummy_data` processes
exactly the regular files under it in `os.walk` order, skips every file whose
name starts with a dot, writes each generated dummy file at the destination
path extended by the file's path relative to the source directory, and returns
the sum of the per-file results; the flat `runRecords` view generates nothing
from hidden files. -/
theorem C9_directory_walk (es : EntryList) (dst_path : String) (n_lines : Int)
    (json_field xml_tag match_text_files : Option String) :
    create_dummy_data (some (.dir es)) dst_path n_lines json_field xml_tag match_text_files =
      (match runRecords n_lines json_field xml_tag match_text_files
          (walkRecords es dst_path) with
       | .error e => .error e
       | .ok (k, w) => .ok (some k, w)) := by
  simp only [create_dummy_data]
  rw [run_dir_eq_runRecords]

/-! Claim C10: the return type of `_create_dummy_data`. -/

/-- C10 (code bug): when `src_path` is neither an existing file nor an existing
directory, `_create_dummy_data` falls off the end of the function and returns
`None` despite its own `-> int` annotation, and the accumulation
`total += None` in `auto_generate_dummy_data_folder` then raises `TypeError`. -/
theorem C10_missing_path_returns_none :
    create_dummy_data none "dst" 5 none none none = .ok (none, []) ∧
    autoGenerateTotal 5 none none none [(none, "dst")] = .error "TypeError" :=
  ⟨rfl, rfl⟩

end DummyData
